import Mathlib

/-
  Shallow embedding of the MDOF oscillation simulator:
    src/mod/initialisation.py  (MassBody, ForceFunction, InputData.couple_bodies,
                                the CPL declaration loop of InputData.__init__)
    src/mod/rungekutta4.py     (RungeKutta4.evaluate, RungeKutta4.F)

  Python floats are modelled by an arbitrary linear ordered field; the
  assembly and validation code uses no division, so it is stated over any
  linear ordered commutative ring and concrete runs are evaluated over the
  integers (every concrete input of the claims is exactly representable
  there).  The sine/cosine waveforms of numpy are passed as function
  parameters sinF and cosF, instantiated with Real.sin and Real.cos where a
  claim needs them.
  numpy arrays and matrices are modelled as total functions from indices;
  out-of-range reads of a numpy array never occur in the runs the theorems
  quantify over (the parser guarantees coupling ids below the body count).
  Python exceptions are modelled with Except over the PyErr type below.
-/

namespace MDOF

/-- Python runtime errors that the embedded code can raise.  Each constructor
corresponds to one raise site (or implicit runtime error) of the source. -/
inductive PyErr where
  /-- Dict access on a missing key (e.g. force_def["STOP"] absent). -/
  | keyError : PyErr
  /-- NotImplementedError for the RANDOM force type. -/
  | notImplementedError : PyErr
  /-- ValueError, initialisation.py lines 95 and 107: force window outside span. -/
  | windowValueError (bodyNo : Nat) : PyErr
  /-- ValueError, initialisation.py line 117: invalid or incomplete force def. -/
  | incompleteForceValueError (bodyNo : Nat) : PyErr
  /-- ValueError, initialisation.py line 211: body coupled to itself. -/
  | selfCouplingValueError (bodyNo : Nat) : PyErr
  /-- ValueError, initialisation.py line 285: no coupling for a body. -/
  | noCouplingValueError (bodyNo : Nat) : PyErr
  /-- AttributeError: calling .get on the empty list placeholder body.P. -/
  | attributeError : PyErr
  /-- IndexError: indexing past the end of a list or array. -/
  | indexError : PyErr
  deriving DecidableEq

/-- The TYPE entry of a force definition dictionary. -/
inductive FType where
  | NONE : FType
  | SIN : FType
  | COS : FType
  | RANDOM : FType
  deriving DecidableEq

section RingEmbedding

variable {α : Type} [LinearOrderedCommRing α]

/-- The force definition dictionary _force_def: each key may be absent. -/
structure FDef (α : Type) where
  type : Option FType := none
  omega : Option α := none
  p0 : Option α := none
  start : Option α := none
  stop : Option α := none
  deriving DecidableEq

/-- A ForceFunction after set: the stored time grid and sampled force array
(fields _time and _P_array of the source class). -/
structure ForceFunction (α : Type) where
  time : List α := []
  P_array : List α := []
  deriving DecidableEq

/-- Embeds ForceFunction.__setattr__ (initialisation.py lines 72-119): the
validation triggered by assigning the _force_def dictionary.  Print
diagnostics are dropped; raised exceptions become Except.error.  The source
order is kept: the OMEGA/P0 presence flags are recorded first, then the
START and STOP window checks may raise, and only afterwards the flag raises
the incomplete-definition ValueError.  The reads time[0] and time[-1] are
modelled with headD and getLastD; every run that reaches this code has a
nonempty grid, where they coincide. -/
def checkForceDef (fd : FDef α) (time : List α) (bodyNo : Nat) :
    Except PyErr (FDef α) :=
  match fd.type with
  | none => .error (.incompleteForceValueError bodyNo)
  | some .NONE => .ok fd
  | some .RANDOM => .error .notImplementedError
  | some .SIN | some .COS =>
      let ierr : Bool := fd.omega.isNone || fd.p0.isNone
      let startRes : Except PyErr (FDef α) :=
        match fd.start with
        | none => .ok { fd with start := some 0 }
        | some st =>
            if time.headD 0 ≤ st ∧ st ≤ time.getLastD 0 then .ok fd
            else .error (.windowValueError bodyNo)
      match startRes with
      | .error e => .error e
      | .ok fd1 =>
        match fd1.stop with
        | none =>
            if ierr then .error (.incompleteForceValueError bodyNo)
            else .ok { fd1 with stop := some (-1) }
        | some sp =>
            if time.headD 0 ≤ sp ∧ sp ≤ time.getLastD 0 then
              if ierr then .error (.incompleteForceValueError bodyNo)
              else .ok fd1
            else .error (.windowValueError bodyNo)

/-- Embeds ForceFunction.set (initialisation.py lines 41-67).  Assigning
self._force_def triggers the __setattr__ validation (checkForceDef); then the
effective stop time is time[-1] when STOP is negative, and the force array is
sampled with np.where over the grid.  sinF and cosF stand for np.sin and
np.cos.  Dictionary reads of absent keys are KeyError. -/
def ForceFunction.set (sinF cosF : α → α) (fd0 : FDef α) (time : List α)
    (bodyNo : Nat) : Except PyErr (ForceFunction α) :=
  match checkForceDef fd0 time bodyNo with
  | .error e => .error e
  | .ok fd =>
    match fd.stop with
    | none => .error .keyError
    | some sp =>
      let tstop := if sp < 0 then time.getLastD 0 else sp
      match fd.start with
      | none => .error .keyError
      | some st =>
        match fd.type with
        | some .SIN =>
            match fd.omega, fd.p0 with
            | some om, some p0 =>
                .ok ⟨time, time.map fun t =>
                      if st ≤ t ∧ t ≤ tstop then p0 * sinF (om * (t - st))
                      else 0⟩
            | _, _ => .error .keyError
        | some .COS =>
            match fd.omega, fd.p0 with
            | some om, some p0 =>
                .ok ⟨time, time.map fun t =>
                      if st ≤ t ∧ t ≤ tstop then p0 * cosF (om * (t - st))
                      else 0⟩
            | _, _ => .error .keyError
        | some .RANDOM => .error .notImplementedError
        | _ => .ok ⟨time, time.map fun _ => 0⟩

/-- MassBody (initialisation.py lines 11-28).  The field defaults mirror
MassBody.__init__; P defaults to the empty-list placeholder, modelled as
none (an Option value: some holds an actual ForceFunction object). -/
structure MassBody (α : Type) [Zero α] where
  m : α := 0
  No : Nat := 0
  k : List α := []
  zeta : List α := []
  coupl : List Nat := []
  x0 : α := 0
  v0 : α := 0
  P : Option (ForceFunction α) := none
  c : List α := []
  xloc : α := 0
  deriving DecidableEq

/-- The default body object MassBody() used as a List.getD fallback. -/
instance : Inhabited (MassBody α) := ⟨{}⟩

/-- The part of the InputData object state that couple_bodies reads and
writes: the body registry and the assembled matrices. -/
structure InputData (α : Type) [Zero α] where
  bodies : List (MassBody α) := []
  M : Nat → Nat → α := fun _ _ => 0
  C : Nat → Nat → α := fun _ _ => 0
  K : Nat → Nat → α := fun _ _ => 0
  n_bodies : Nat := 0
  n_ds : Nat := 0

/-- Single-entry write to a matrix stored as a total index function. -/
def updF (A : Nat → Nat → α) (a b : Nat) (v : α) : Nat → Nat → α :=
  fun x y => if x = a ∧ y = b then v else A x y

/-- Single-entry write to a Boolean relation matrix. -/
def updB (R : Nat → Nat → Bool) (a b : Nat) (v : Bool) : Nat → Nat → Bool :=
  fun x y => if x = a ∧ y = b then v else R x y

/-- Single-entry write to a vector stored as a total index function. -/
def updV (f : Nat → α) (a : Nat) (v : α) : Nat → α :=
  fun x => if x = a then v else f x

/-- State built by the relations loop of couple_bodies (lines 261-277):
the Boolean adjacency matrix _relations, the coefficient matrices
_relations_C and _relations_K, and the counter n_ds. -/
structure RelSt (α : Type) [Zero α] where
  rel : Nat → Nat → Bool := fun _ _ => false
  relC : Nat → Nat → α := fun _ _ => 0
  relK : Nat → Nat → α := fun _ _ => 0
  n_ds : Nat := 0

/-- Inner loop of lines 270-277: for i_con, k in enumerate(body.coupl),
record the relation symmetrically together with the coefficients
body.c[i_con] and body.k[i_con]. -/
def couplLoop (i : Nat) (cs ks : List α) : Nat → List Nat → RelSt α → RelSt α
  | _, [], st => st
  | icon, kk :: rest, st =>
      couplLoop i cs ks (icon + 1) rest
        { rel := updB (updB st.rel i kk true) kk i true
          relC := updF (updF st.relC i kk (cs.getD icon 0)) kk i (cs.getD icon 0)
          relK := updF (updF st.relK i kk (ks.getD icon 0)) kk i (ks.getD icon 0)
          n_ds := st.n_ds + 1 }

/-- Outer loop of lines 265-277: for i, body in enumerate(self.bodies). -/
def relLoop : Nat → List (MassBody α) → RelSt α → RelSt α
  | _, [], st => st
  | i, b :: rest, st => relLoop (i + 1) rest (couplLoop i b.c b.k 0 b.coupl st)

/-- The full relations pass of couple_bodies starting from zeroed arrays. -/
def buildRel (bodies : List (MassBody α)) : RelSt α :=
  relLoop 0 bodies {}

/-- The three matrices being assembled (self.M, self.C, self.K). -/
structure MCK (α : Type) [Zero α] where
  M : Nat → Nat → α := fun _ _ => 0
  C : Nat → Nat → α := fun _ _ => 0
  K : Nat → Nat → α := fun _ _ => 0

/-- Accumulation loop over one row of _relations, adding v j into cell (a,b)
of A for every j with w j; instantiated by the diagonal branch (lines
291-294) and the off-diagonal branch (lines 296-301) of couple_bodies. -/
def accLoop (a b : Nat) (w : Nat → Bool) (v : Nat → α) :
    List Nat → (Nat → Nat → α) → Nat → Nat → α
  | [], A => A
  | j :: rest, A =>
      accLoop a b w v rest (if w j then updF A a b (A a b + v j) else A)

/-- Loop over k in range(i, nbodies) (lines 289-301).  The diagonal entry
(i,i) accumulates every coupling coefficient of row i; an off-diagonal entry
(i,k) accumulates the negated coefficients of every non-ground relation of
row i (exactly as the source does: the inner loop does not test i_con
against k). -/
def kLoop (n : Nat) (rel : Nat → Nat → Bool) (relC relK : Nat → Nat → α)
    (i : Nat) : List Nat → MCK α → MCK α
  | [], st => st
  | kk :: rest, st =>
      kLoop n rel relC relK i rest <|
        if i = kk then
          { st with
            C := accLoop i i (fun j => rel i j) (fun j => relC i j)
                   (List.range n) st.C
            K := accLoop i i (fun j => rel i j) (fun j => relK i j)
                   (List.range n) st.K }
        else
          { st with
            C := accLoop i kk (fun j => decide (j ≠ 0) && rel i j)
                   (fun j => -relC i j) (List.range n) st.C
            K := accLoop i kk (fun j => decide (j ≠ 0) && rel i j)
                   (fun j => -relK i j) (List.range n) st.K }

/-- Main assembly loop of lines 280-301: for each body i, write the mass on
the diagonal of M, raise the no-coupling ValueError when row i of _relations
is all false, and otherwise run the k loop over range(i, nbodies). -/
def bodyLoop (n : Nat) (rel : Nat → Nat → Bool) (relC relK : Nat → Nat → α) :
    Nat → List (MassBody α) → MCK α → Except PyErr (MCK α)
  | _, [], st => .ok st
  | i, b :: rest, st =>
      let st1 : MCK α := { st with M := updF st.M i i b.m }
      if (List.range n).any (fun j => rel i j) then
        bodyLoop n rel relC relK (i + 1) rest
          (kLoop n rel relC relK i (List.range' i (n - i)) st1)
      else .error (.noCouplingValueError b.No)

/-- One inner pass of the mirroring loop (lines 313-317) for a fixed row i:
for k in range(i, size), if i is not k then A[k,i] gets A[i,k]. -/
def mirInner (i : Nat) : List Nat → (Nat → Nat → α) → Nat → Nat → α
  | [], A => A
  | kk :: rest, A =>
      mirInner i rest (if i ≠ kk then updF A kk i (A i kk) else A)

/-- Outer mirroring loop over i in range(size). -/
def mirLoop (size : Nat) : List Nat → (Nat → Nat → α) → Nat → Nat → α
  | [], A => A
  | i :: rest, A => mirLoop size rest (mirInner i (List.range' i (size - i)) A)

/-- Mirror the upper triangle into the lower one, lines 312-317 of the
source (applied there to C and K in the same double loop; the two matrices
do not interact, so the embedding mirrors one matrix at a time). -/
def mirror (size : Nat) (A : Nat → Nat → α) : Nat → Nat → α :=
  mirLoop size (List.range size) A

/-- InputData.couple_bodies (initialisation.py lines 250-317): build the
relations arrays, run the assembly loop (which may raise the no-coupling
ValueError), delete the base row and column when bodies[0] is the base, and
mirror the upper triangles of C and K.  bodies[0] on an empty registry is an
IndexError. -/
def coupleBodies (inp : InputData α) : Except PyErr (InputData α) :=
  let n := inp.bodies.length
  let rs : RelSt α := buildRel inp.bodies
  match bodyLoop n rs.rel rs.relC rs.relK 0 inp.bodies {} with
  | .error e => .error e
  | .ok mck =>
    match inp.bodies with
    | [] => .error .indexError
    | b0 :: rest =>
      if b0.No = 0 then
        let M1 := fun a b => mck.M (a + 1) (b + 1)
        let C1 := fun a b => mck.C (a + 1) (b + 1)
        let K1 := fun a b => mck.K (a + 1) (b + 1)
        .ok { bodies := rest, M := M1, C := mirror (n - 1) C1,
              K := mirror (n - 1) K1, n_bodies := rest.length,
              n_ds := rs.n_ds }
      else
        .ok { bodies := inp.bodies, M := mck.M, C := mirror n mck.C,
              K := mirror n mck.K, n_bodies := inp.n_bodies,
              n_ds := rs.n_ds }

/-- The CPL declaration loop of InputData.__init__ (lines 206-213): the ids
are appended one by one and the self-coupling ValueError is raised as soon
as an id equal to the body number is read. -/
def cplLoop (bodyNo : Nat) : List Nat → List Nat → Except PyErr (List Nat)
  | acc, [] => .ok acc
  | acc, c :: rest =>
      let acc1 := acc ++ [c]
      if c = bodyNo then .error (.selfCouplingValueError bodyNo)
      else cplLoop bodyNo acc1 rest

/-- Reading a whole CPL line for one body, starting from the freshly zeroed
coupling array of line 207. -/
def readCPL (bodyNo : Nat) (ids : List Nat) : Except PyErr (List Nat) :=
  cplLoop bodyNo [] ids

end RingEmbedding

section FieldEmbedding

variable {α : Type} [LinearOrderedField α]

/-- np.interp(t, xp, fp) on the list of pairs zip xp fp, for strictly
increasing xp: clamps at both ends, linear interpolation between nodes.
numpy raises on an empty grid; the embedding returns 0 there (never used). -/
def interp (t : α) : List (α × α) → α
  | [] => 0
  | [p] => p.2
  | p :: q :: rest =>
      if t ≤ p.1 then p.2
      else if t ≤ q.1 then p.2 + (q.2 - p.2) * (t - p.1) / (q.1 - p.1)
      else interp t (q :: rest)

/-- ForceFunction.get (initialisation.py lines 69-70):
np.interp(t, self._time, self._P_array). -/
def ForceFunction.get (ff : ForceFunction α) (t : α) : α :=
  interp t (ff.time.zip ff.P_array)

/-- The RungeKutta4 object (rungekutta4.py lines 10-20).  The source inverts
M once in the constructor; the embedding stores that inverse directly.
P is the list built by InputData.get_force_array: each entry is either a
ForceFunction object or the empty-list placeholder (none) of a body that
never received a force block. -/
structure RungeKutta4 (α : Type) where
  Minv : Nat → Nat → α
  C : Nat → Nat → α
  K : Nat → Nat → α
  P : List (Option (ForceFunction α))
  dt : α
  nbodies : Nat

/-- Matrix-vector product A.dot(v) over the first n coordinates. -/
def matVec (n : Nat) (A : Nat → Nat → α) (v : Nat → α) : Nat → α :=
  fun i => ((List.range n).map (fun j => A i j * v j)).sum

/-- The force-vector loop of RungeKutta4.F (lines 55-57): P = np.zeros(n),
then P[i] = self._P[i].get(t) for each body.  Calling .get on the []
placeholder is an AttributeError; indexing past the force list is an
IndexError. -/
def pLoop (Ps : List (Option (ForceFunction α))) (t : α) :
    List Nat → (Nat → α) → Except PyErr (Nat → α)
  | [], acc => .ok acc
  | i :: rest, acc =>
      match Ps.get? i with
      | some (some ff) => pLoop Ps t rest (updV acc i (ff.get t))
      | some none => .error .attributeError
      | none => .error .indexError

/-- The assembled force vector P(t) of RungeKutta4.F. -/
def buildP (rk : RungeKutta4 α) (t : α) : Except PyErr (Nat → α) :=
  pLoop rk.P t (List.range rk.nbodies) (fun _ => 0)

/-- RungeKutta4.F (lines 53-59): M_inv.dot(P - K.dot(x) - C.dot(y)). -/
def rkF (rk : RungeKutta4 α) (x y : Nat → α) (t : α) :
    Except PyErr (Nat → α) :=
  match buildP rk t with
  | .error e => .error e
  | .ok P =>
      .ok (matVec rk.nbodies rk.Minv
            (fun i => P i - matVec rk.nbodies rk.K x i
                      - matVec rk.nbodies rk.C y i))

/-- RungeKutta4.evaluate (lines 22-51), returning the pair
(velocity increment y_ip1, displacement increment x_ip1) that the source
packs as np.transpose(np.array([y_ip1, x_ip1])). -/
def evaluate (rk : RungeKutta4 α) (y x : Nat → α) (t : α) :
    Except PyErr ((Nat → α) × (Nat → α)) :=
  match rkF rk x y t with
  | .error e => .error e
  | .ok F1 =>
    let x2 := fun i => x i + y i * rk.dt / 2
    let y2 := fun i => y i + F1 i * rk.dt / 2
    match rkF rk x2 y2 (t + rk.dt / 2) with
    | .error e => .error e
    | .ok F2 =>
      let x3 := fun i => x i + y2 i * rk.dt / 2
      let y3 := fun i => y i + F2 i * rk.dt / 2
      match rkF rk x3 y3 (t + rk.dt / 2) with
      | .error e => .error e
      | .ok F3 =>
        let x4 := fun i => x i + y3 i * rk.dt
        let y4 := fun i => y i + F3 i * rk.dt
        match rkF rk x4 y4 (t + rk.dt) with
        | .error e => .error e
        | .ok F4 =>
            .ok (fun i => rk.dt / 6 * (F1 i + 2 * F2 i + 2 * F3 i + F4 i),
                 fun i => rk.dt / 6 * (y i + 2 * y2 i + 2 * y3 i + y4 i))

/-- The value the force loop stores for body i: the force function of body
i evaluated at t (zero when the entry is absent or a placeholder). -/
def pVal (Ps : List (Option (ForceFunction α))) (t : α) (i : Nat) : α :=
  match Ps.get? i with
  | some (some ff) => ff.get t
  | _ => 0

/-- The per-body force vector P(t) of the specification: each body's force
function evaluated at time t (zero beyond the body count). -/
def specP (rk : RungeKutta4 α) (t : α) : Nat → α :=
  fun i => if i < rk.nbodies then pVal rk.P t i else 0

/-- The stage derivative of the specification:
F(x, y, t) = M inverse applied to (P(t) - K x - C y). -/
def Fd (rk : RungeKutta4 α) (x y : Nat → α) (t : α) : Nat → α :=
  matVec rk.nbodies rk.Minv
    (fun i => specP rk t i - matVec rk.nbodies rk.K x i
              - matVec rk.nbodies rk.C y i)

/-- The classical RK4 increment exactly as the specification states it:
four stages of the derivative Fder at t, t + dt/2, t + dt/2, t + dt on the
first-order system (x, y), velocity increment dt/6 (F1 + 2 F2 + 2 F3 + F4)
and displacement increment dt/6 (y1 + 2 y2 + 2 y3 + y4) built from the
stage velocities. -/
def rk4Increment (Fder : (Nat → α) → (Nat → α) → α → Nat → α)
    (y x : Nat → α) (t dt : α) : (Nat → α) × (Nat → α) :=
  let k1 := Fder x y t
  let y2 := fun i => y i + dt / 2 * k1 i
  let x2 := fun i => x i + dt / 2 * y i
  let k2 := Fder x2 y2 (t + dt / 2)
  let y3 := fun i => y i + dt / 2 * k2 i
  let x3 := fun i => x i + dt / 2 * y2 i
  let k3 := Fder x3 y3 (t + dt / 2)
  let y4 := fun i => y i + dt * k3 i
  let x4 := fun i => x i + dt * y3 i
  let k4 := Fder x4 y4 (t + dt)
  (fun i => dt / 6 * (k1 i + 2 * k2 i + 2 * k3 i + k4 i),
   fun i => dt / 6 * (y i + 2 * y2 i + 2 * y3 i + y4 i))

end FieldEmbedding

/-- The synthetic base body appended first by InputData.__init__:
a plain MassBody() with every default. -/
def groundBody : MassBody ℤ := {}

/-- Body 1 of the two-movable-body scenario of the specification: mass 1,
coupled to the base (stiffness 10, damping ratio 0, hence c = 0) and to
body 2 (stiffness 5, damping ratio 0). -/
def scBody1 : MassBody ℤ :=
  { m := 1, No := 1, k := [10, 5], zeta := [0, 0], coupl := [0, 2], c := [0, 0] }

/-- Body 2 of the scenario: mass 1, coupled only to body 1 (stiffness 5,
damping ratio 0). -/
def scBody2 : MassBody ℤ :=
  { m := 1, No := 2, k := [5], zeta := [0], coupl := [1], c := [0] }

/-- The registry of the two-movable-body scenario. -/
def scInp : InputData ℤ := { bodies := [groundBody, scBody1, scBody2] }

/-- The assembled state of a rational registry; the input itself on error. -/
def asmOut (inp : InputData ℤ) : InputData ℤ :=
  ((coupleBodies inp).toOption).getD inp

/-- Stiffness matrix produced by assembly on a rational registry. -/
def asmK (inp : InputData ℤ) : Nat → Nat → ℤ := (asmOut inp).K

/-- Damping matrix produced by assembly on a rational registry. -/
def asmC (inp : InputData ℤ) : Nat → Nat → ℤ := (asmOut inp).C

/-- Mass matrix produced by assembly on a rational registry. -/
def asmM (inp : InputData ℤ) : Nat → Nat → ℤ := (asmOut inp).M

/-- A three-body chain: body 1 to ground (stiffness 10) and to body 2
(stiffness 5), body 2 to body 3 (stiffness 20), all damping ratios zero.
Bodies 1 and 3 are not directly coupled. -/
def chBody1 : MassBody ℤ :=
  { m := 1, No := 1, k := [10, 5], zeta := [0, 0], coupl := [0, 2], c := [0, 0] }

/-- Chain body 2: declares only its coupling to body 3. -/
def chBody2 : MassBody ℤ :=
  { m := 1, No := 2, k := [20], zeta := [0], coupl := [3], c := [0] }

/-- Chain body 3: declares nothing; its link to body 2 is recorded
symmetrically from the declaration of body 2. -/
def chBody3 : MassBody ℤ := { m := 1, No := 3 }

/-- The three-movable-body chain registry. -/
def chInp : InputData ℤ := { bodies := [groundBody, chBody1, chBody2, chBody3] }

/-- Registry in which the movable bodies are coupled to each other but no
body declares a coupling to the base body 0. -/
def ngBody1 : MassBody ℤ :=
  { m := 1, No := 1, k := [1], zeta := [0], coupl := [2], c := [0] }

/-- Second movable body of the no-ground-coupling registry. -/
def ngBody2 : MassBody ℤ :=
  { m := 1, No := 2, k := [1], zeta := [0], coupl := [1], c := [0] }

/-- The no-ground-coupling registry. -/
def ngInp : InputData ℤ := { bodies := [groundBody, ngBody1, ngBody2] }

/-- Registry with one properly coupled movable body and one body (No 2)
that neither declares a coupling nor is declared by anyone. -/
def unBody1 : MassBody ℤ :=
  { m := 1, No := 1, k := [4], zeta := [0], coupl := [0], c := [0] }

/-- The unconnected body No 2. -/
def unBody2 : MassBody ℤ := { m := 1, No := 2 }

/-- The registry containing the unconnected movable body. -/
def unInp : InputData ℤ := { bodies := [groundBody, unBody1, unBody2] }

/-- The RungeKutta4 object of a one-body system whose body has no force
block: its P list holds the empty-list placeholder. -/
def rkNoForce : RungeKutta4 ℚ :=
  { Minv := fun a b => if a = b then 1 else 0, C := fun _ _ => 0,
    K := fun _ _ => 0, P := [none], dt := 1, nbodies := 1 }

/-- A force function sampled from a TYPE NONE definition on the grid [0, 1]:
identically zero. -/
def ffZero : ForceFunction ℚ := ⟨[0, 1], [0, 0]⟩

/-- A one-body RungeKutta4 object with unit mass, no damping or stiffness,
and the zero force function attached. -/
def rkOne : RungeKutta4 ℚ :=
  { Minv := fun a b => if a = b then 1 else 0, C := fun _ _ => 0,
    K := fun _ _ => 0, P := [some ffZero], dt := 1, nbodies := 1 }

/-- The zero state vector. -/
def zeroVec : Nat → ℚ := fun _ => 0

/-- A sine force definition missing its OMEGA entry (amplitude, start and
stop are present and inside the grid). -/
def fdNoOmega : FDef ℤ :=
  { type := some .SIN, omega := none, p0 := some 1, start := some 0,
    stop := some 1 }

/-- A cosine force definition with amplitude 1, angular frequency 1 and
window [1, 2] on the real grid [0, 1, 2]. -/
def fdCos : FDef ℝ :=
  { type := some .COS, omega := some 1, p0 := some 1, start := some 1,
    stop := some 2 }

/-- A sine force definition with amplitude 1, angular frequency 1 and
window [0, 2], used with the identity in place of the sine waveform. -/
def fdWit : FDef ℚ :=
  { type := some .SIN, omega := some 1, p0 := some 1, start := some 0,
    stop := some 2 }

/-- The force function that fdWit samples on the grid [0, 1, 2] when the
waveform is the identity function. -/
def ffWit : ForceFunction ℚ := ⟨[0, 1, 2], [0, 1, 2]⟩

/-- An input state carrying stale matrices next to its registry. -/
def staleInp : InputData ℤ :=
  { bodies := [groundBody, scBody1, scBody2], M := fun _ _ => 7,
    C := fun _ _ => 8, K := fun _ _ => 9, n_bodies := 5 }

/-- An input state with the same registry and fresh default matrices. -/
def freshInp : InputData ℤ := { bodies := [groundBody, scBody1, scBody2] }

section MirrorLemmas

variable {α : Type}

/-- One pass of the mirroring inner loop writes A i k into every cell (k, i)
with k in ks, k distinct from i, and reads only unwritten upper cells. -/
theorem mirInner_char (i : Nat) :
    ∀ (ks : List Nat) (A : Nat → Nat → α) (a b : Nat),
      mirInner i ks A a b = if b = i ∧ a ∈ ks ∧ a ≠ i then A i a else A a b := by
  intro ks
  induction ks with
  | nil => intro A a b; simp [mirInner]
  | cons kk rest ih =>
    intro A a b
    rcases eq_or_ne i kk with heq | hne
    · subst heq
      show mirInner i rest (if i ≠ i then updF A i i (A i i) else A) a b = _
      rw [if_neg (by simp), ih]
      by_cases hb : b = i <;> by_cases ha : a ∈ rest <;> by_cases hai : a = i <;>
        simp [List.mem_cons, hb, ha, hai]
    · show mirInner i rest (if i ≠ kk then updF A kk i (A i kk) else A) a b = _
      rw [if_pos hne, ih]
      by_cases hb : b = i <;> by_cases hak : a = kk <;> by_cases ha : a ∈ rest <;>
        by_cases hai : a = i <;>
        simp_all [List.mem_cons, updF, hne.symm]

/-- The outer mirroring loop writes A b a into every strictly lower cell
(a, b) whose row index a is below size and whose column index b occurs in
the processed list. -/
theorem mirLoop_char (size : Nat) :
    ∀ (is : List Nat) (A : Nat → Nat → α) (a b : Nat),
      (∀ j ∈ is, j < size) →
      mirLoop size is A a b =
        if b ∈ is ∧ b < a ∧ a < size then A b a else A a b := by
  intro is
  induction is with
  | nil => intro A a b _; simp [mirLoop]
  | cons i rest ih =>
    intro A a b his
    have hi : i < size := his i (List.mem_cons_self i rest)
    have hrest : ∀ j ∈ rest, j < size := fun j hj => his j (List.mem_cons_of_mem i hj)
    show mirLoop size rest (mirInner i (List.range' i (size - i)) A) a b = _
    rw [ih _ a b hrest]
    have hmemr : ∀ x, x ∈ List.range' i (size - i) ↔ i ≤ x ∧ x < size := by
      intro x
      rw [List.mem_range'_1]
      omega
    by_cases hcase : b ∈ rest ∧ b < a ∧ a < size
    · rw [if_pos hcase, mirInner_char]
      have : ¬(a = i ∧ b ∈ List.range' i (size - i) ∧ b ≠ i) := by
        rintro ⟨rfl, hbr, -⟩
        exact absurd ((hmemr b).mp hbr).1 (by omega)
      rw [if_neg this, if_pos ⟨List.mem_cons_of_mem i hcase.1, hcase.2⟩]
    · rw [if_neg hcase, mirInner_char]
      by_cases hcond : b = i ∧ a ∈ List.range' i (size - i) ∧ a ≠ i
      · obtain ⟨rfl, har, hai⟩ := hcond
        have hia := (hmemr a).mp har
        rw [if_pos ⟨rfl, har, hai⟩,
          if_pos ⟨List.mem_cons_self b rest, by omega, hia.2⟩]
      · rw [if_neg hcond]
        have : ¬(b ∈ i :: rest ∧ b < a ∧ a < size) := by
          rintro ⟨hbm, hba, has⟩
          rcases List.mem_cons.mp hbm with rfl | hbm
          · exact hcond ⟨rfl, (hmemr a).mpr ⟨by omega, has⟩, by omega⟩
          · exact hcase ⟨hbm, hba, has⟩
        rw [if_neg this]

/-- The mirroring step of couple_bodies: each strictly-lower entry inside
the size range becomes the transposed upper entry, and everything else is
untouched. -/
theorem mirror_char (size : Nat) (A : Nat → Nat → α) (a b : Nat) :
    mirror size A a b = if b < a ∧ a < size then A b a else A a b := by
  rw [mirror, mirLoop_char size _ A a b (fun j hj => List.mem_range.mp hj)]
  by_cases h : b < a ∧ a < size
  · rw [if_pos ⟨List.mem_range.mpr (by omega), h⟩, if_pos h]
  · rw [if_neg (by simp [List.mem_range]; omega), if_neg h]

end MirrorLemmas

section AssemblyLemmas

variable {α : Type} [LinearOrderedCommRing α]

/-- The k loop of couple_bodies never touches the mass matrix. -/
theorem kLoop_M (n : Nat) (rel : Nat → Nat → Bool) (rC rK : Nat → Nat → α)
    (i : Nat) : ∀ (ks : List Nat) (st : MCK α),
    (kLoop n rel rC rK i ks st).M = st.M := by
  intro ks
  induction ks with
  | nil => intro st; rfl
  | cons kk rest ih =>
    intro st
    show (kLoop n rel rC rK i rest _).M = st.M
    rw [ih]
    by_cases h : i = kk <;> simp [h]

/-- On success, the main assembly loop has written exactly the masses of the
processed bodies on the diagonal of M, and nothing else. -/
theorem bodyLoop_M (n : Nat) (rel : Nat → Nat → Bool) (rC rK : Nat → Nat → α) :
    ∀ (bs : List (MassBody α)) (i : Nat) (st out : MCK α),
    bodyLoop n rel rC rK i bs st = .ok out →
    ∀ a b, out.M a b =
      if a = b ∧ i ≤ a ∧ a < i + bs.length then (bs.getD (a - i) default).m
      else st.M a b := by
  intro bs
  induction bs with
  | nil =>
    intro i st out h a b
    have : st = out := by simpa [bodyLoop] using h
    subst this
    rw [if_neg (by simp only [List.length_nil]; omega)]
  | cons bd rest ih =>
    intro i st out h a b
    rw [show bodyLoop n rel rC rK i (bd :: rest) st =
        (if (List.range n).any (fun j => rel i j) then
          bodyLoop n rel rC rK (i + 1) rest
            (kLoop n rel rC rK i (List.range' i (n - i))
              { st with M := updF st.M i i bd.m })
        else .error (.noCouplingValueError bd.No)) from rfl] at h
    by_cases hchk : (List.range n).any (fun j => rel i j)
    · rw [if_pos hchk] at h
      rw [ih _ _ _ h a b, kLoop_M]
      show _ = if a = b ∧ i ≤ a ∧ a < i + (rest.length + 1) then _ else st.M a b
      by_cases h1 : a = b ∧ i + 1 ≤ a ∧ a < i + 1 + rest.length
      · rw [if_pos h1, if_pos ⟨h1.1, by omega, by omega⟩]
        have ha : a - i = (a - (i + 1)) + 1 := by omega
        rw [ha, List.getD_cons_succ]
      · rw [if_neg h1]
        show updF st.M i i bd.m a b = _
        by_cases h2 : a = i ∧ b = i
        · rw [updF, if_pos h2]
          rw [if_pos ⟨by omega, by omega, by omega⟩]
          have : a - i = 0 := by omega
          rw [this, List.getD_cons_zero]
        · rw [updF, if_neg h2]
          have : ¬(a = b ∧ i ≤ a ∧ a < i + (rest.length + 1)) := by
            rintro ⟨rfl, hia, hlt⟩
            rcases Nat.eq_or_lt_of_le hia with rfl | hlt1
            · exact h2 ⟨rfl, rfl⟩
            · exact h1 ⟨rfl, by omega, by omega⟩
          rw [if_neg this]
    · rw [if_neg hchk] at h
      exact absurd h (by simp)

/-- If some body in the remaining list has an all-false relations row, the
main assembly loop raises the no-coupling ValueError. -/
theorem bodyLoop_err (n : Nat) (rel : Nat → Nat → Bool) (rC rK : Nat → Nat → α) :
    ∀ (bs : List (MassBody α)) (i : Nat) (st : MCK α),
    (∃ j, j < bs.length ∧ ((List.range n).any fun m => rel (i + j) m) = false) →
    ∃ no, bodyLoop n rel rC rK i bs st = .error (.noCouplingValueError no) := by
  intro bs
  induction bs with
  | nil =>
    rintro i st ⟨j, hj, -⟩
    exact absurd hj (by simp)
  | cons bd rest ih =>
    rintro i st ⟨j, hj, hrow⟩
    show ∃ no, (if (List.range n).any (fun j => rel i j) then
        bodyLoop n rel rC rK (i + 1) rest
          (kLoop n rel rC rK i (List.range' i (n - i))
            { st with M := updF st.M i i bd.m })
      else .error (.noCouplingValueError bd.No)) = _
    by_cases hchk : (List.range n).any (fun j => rel i j)
    · rw [if_pos hchk]
      cases j with
      | zero => rw [Nat.add_zero] at hrow; rw [hrow] at hchk; exact absurd hchk (by simp)
      | succ j1 =>
        apply ih (i + 1)
        exact ⟨j1, by simpa using hj, by rw [show i + 1 + j1 = i + (j1 + 1) by omega]; exact hrow⟩
    · rw [if_neg hchk]
      exact ⟨bd.No, rfl⟩

/-- The coupling declarations of a body with nonzero index and no reference
to body 0 leave row 0 of the relations matrix untouched. -/
theorem couplLoop_row0 (i : Nat) (cs ks : List α) (hi : i ≠ 0) :
    ∀ (cpl : List Nat) (icon : Nat) (st : RelSt α),
    (∀ x ∈ cpl, x ≠ 0) → (∀ b, st.rel 0 b = false) →
    ∀ b, (couplLoop i cs ks icon cpl st).rel 0 b = false := by
  intro cpl
  induction cpl with
  | nil => intro icon st _ h0 b; exact h0 b
  | cons kk rest ih =>
    intro icon st hc h0 b
    show (couplLoop i cs ks (icon + 1) rest _).rel 0 b = false
    apply ih
    · exact fun x hx => hc x (List.mem_cons_of_mem kk hx)
    · intro b1
      show updB (updB st.rel i kk true) kk i true 0 b1 = false
      have hkk : kk ≠ 0 := hc kk (List.mem_cons_self kk rest)
      rw [updB, if_neg (by rintro ⟨h, -⟩; exact hkk h.symm),
        updB, if_neg (by rintro ⟨h, -⟩; exact hi h.symm)]
      exact h0 b1

/-- Processing bodies from index 1 on, none of which declares a coupling to
body 0, leaves row 0 of the relations matrix all false. -/
theorem relLoop_row0 :
    ∀ (bs : List (MassBody α)) (i : Nat) (st : RelSt α), 1 ≤ i →
    (∀ bd ∈ bs, ∀ x ∈ bd.coupl, x ≠ 0) → (∀ b, st.rel 0 b = false) →
    ∀ b, (relLoop i bs st).rel 0 b = false := by
  intro bs
  induction bs with
  | nil => intro i st _ _ h0 b; exact h0 b
  | cons bd rest ih =>
    intro i st hi hb h0 b
    show (relLoop (i + 1) rest _).rel 0 b = false
    apply ih (i + 1) _ (by omega)
    · exact fun x hx => hb x (List.mem_cons_of_mem bd hx)
    · exact couplLoop_row0 i bd.c bd.k (by omega) bd.coupl 0 st
        (hb bd (List.mem_cons_self bd rest)) h0

end AssemblyLemmas

/-- The CPL reading loop raises the self-coupling ValueError as soon as the
body number occurs among the remaining ids. -/
theorem cplLoop_self (no : Nat) :
    ∀ (ids acc : List Nat), no ∈ ids →
    cplLoop no acc ids = .error (.selfCouplingValueError no) := by
  intro ids
  induction ids with
  | nil => intro acc h; exact absurd h (by simp)
  | cons c rest ih =>
    intro acc h
    show (if c = no then Except.error (PyErr.selfCouplingValueError no)
      else cplLoop no (acc ++ [c]) rest) = _
    by_cases hc : c = no
    · rw [if_pos hc]
    · rw [if_neg hc]
      exact ih _ (by rcases List.mem_cons.mp h with rfl | h1; exact absurd rfl hc; exact h1)

section FieldLemmas

variable {α : Type} [LinearOrderedField α]

/-- np.interp returns the stored sample exactly when queried at a node of a
strictly increasing grid. -/
theorem interp_eq_of_mem :
    ∀ (ps : List (α × α)) (x y : α), (ps.map Prod.fst).Pairwise (· < ·) →
    (x, y) ∈ ps → interp x ps = y := by
  intro ps
  induction ps with
  | nil => intro x y _ hmem; exact absurd hmem (by simp)
  | cons p tail ih =>
    intro x y hpw hmem
    have hlt : ∀ b ∈ tail.map Prod.fst, p.1 < b :=
      (List.pairwise_cons.mp hpw).1
    have hpw1 : (tail.map Prod.fst).Pairwise (· < ·) :=
      (List.pairwise_cons.mp hpw).2
    match tail, hmem with
    | [], hmem =>
        have := List.mem_singleton.mp hmem
        rw [show x = p.1 from congrArg Prod.fst this]
        show p.2 = y
        exact (congrArg Prod.snd this).symm
    | q :: rest, hmem =>
        show (if x ≤ p.1 then p.2
          else if x ≤ q.1 then p.2 + (q.2 - p.2) * (x - p.1) / (q.1 - p.1)
          else interp x (q :: rest)) = y
        rcases List.mem_cons.mp hmem with heq | hmem1
        · rw [show x = p.1 from congrArg Prod.fst heq, if_pos le_rfl]
          exact (congrArg Prod.snd heq).symm
        · have hx : p.1 < x := hlt x
            (List.mem_map_of_mem Prod.fst hmem1)
          rw [if_neg (by exact not_le.mpr hx)]
          have hpq : p.1 < q.1 := hlt q.1 (by simp)
          rcases List.mem_cons.mp hmem1 with heq | hmem2
          · have hxq : x = q.1 := congrArg Prod.fst heq
            rw [if_pos (le_of_eq hxq), hxq]
            have hne : q.1 - p.1 ≠ 0 := sub_ne_zero.mpr (ne_of_gt hpq)
            rw [mul_div_assoc, div_self hne, mul_one]
            rw [show y = q.2 from congrArg Prod.snd heq]
            ring
          · have hq : q.1 < x := by
              have := List.pairwise_cons.mp hpw1
              exact this.1 x (List.mem_map_of_mem Prod.fst hmem2)
            rw [if_neg (by exact not_le.mpr hq)]
            exact ih x y hpw1 hmem1

/-- The force loop of RungeKutta4.F succeeds and stores each present force
function's value when every requested index holds a real ForceFunction. -/
theorem pLoop_ok (Ps : List (Option (ForceFunction α))) (t : α) :
    ∀ (js : List Nat) (acc : Nat → α),
    (∀ i ∈ js, ∃ ff, Ps.get? i = some (some ff)) →
    pLoop Ps t js acc =
      .ok (fun i => if i ∈ js then pVal Ps t i else acc i) := by
  intro js
  induction js with
  | nil =>
    intro acc _
    rfl
  | cons j rest ih =>
    intro acc h
    obtain ⟨ff, hff⟩ := h j (List.mem_cons_self j rest)
    show (match Ps.get? j with
      | some (some ff) => pLoop Ps t rest (updV acc j (ff.get t))
      | some none => Except.error PyErr.attributeError
      | none => Except.error PyErr.indexError) = _
    rw [hff]
    show pLoop Ps t rest (updV acc j (ff.get t)) = _
    rw [ih _ (fun i hi => h i (List.mem_cons_of_mem j hi))]
    congr 1
    funext i
    by_cases hir : i ∈ rest
    · rw [if_pos hir, if_pos (List.mem_cons_of_mem j hir)]
    · rw [if_neg hir]
      by_cases hij : i = j
      · subst hij
        rw [if_pos (List.mem_cons_self i rest)]
        show updV acc i (ff.get t) i = pVal Ps t i
        rw [updV, if_pos rfl, pVal, hff]
      · rw [updV, if_neg hij,
          if_neg (by rw [List.mem_cons]; rintro (rfl | h1); exact hij rfl; exact hir h1)]

/-- RungeKutta4.F builds exactly the specification force vector when every
body below the body count carries a ForceFunction. -/
theorem buildP_ok (rk : RungeKutta4 α) (t : α)
    (hp : ∀ i, i < rk.nbodies → ∃ ff, rk.P.get? i = some (some ff)) :
    buildP rk t = .ok (specP rk t) := by
  rw [buildP, pLoop_ok rk.P t (List.range rk.nbodies) _
    (fun i hi => hp i (List.mem_range.mp hi))]
  congr 1
  funext i
  rw [specP]
  by_cases hi : i < rk.nbodies
  · rw [if_pos (List.mem_range.mpr hi), if_pos hi]
  · rw [if_neg (fun h => hi (List.mem_range.mp h)), if_neg hi]

/-- RungeKutta4.F computes the specification stage derivative whenever every
body carries a ForceFunction. -/
theorem rkF_ok (rk : RungeKutta4 α) (x y : Nat → α) (t : α)
    (hp : ∀ i, i < rk.nbodies → ∃ ff, rk.P.get? i = some (some ff)) :
    rkF rk x y t = .ok (Fd rk x y t) := by
  rw [rkF, buildP_ok rk t hp]
  rfl

end FieldLemmas

/-- C9: for the concrete two-movable-body input (body 1 coupled to ground
with stiffness 10 and damping ratio 0, and to body 2 with stiffness 5 and
damping ratio 0; body 2 coupled only to body 1 with stiffness 5 and damping
ratio 0; both masses 1), assembly succeeds and produces exactly
M = diag(1,1), K = [[15,-5],[-5,5]], and C equal to the zero matrix. -/
theorem two_body_scenario_matrices :
    (coupleBodies scInp).toOption.isSome = true ∧
    asmM scInp 0 0 = 1 ∧ asmM scInp 0 1 = 0 ∧ asmM scInp 1 0 = 0 ∧
    asmM scInp 1 1 = 1 ∧
    asmK scInp 0 0 = 15 ∧ asmK scInp 0 1 = -5 ∧ asmK scInp 1 0 = -5 ∧
    asmK scInp 1 1 = 5 ∧
    (∀ i < 2, ∀ j < 2, asmC scInp i j = 0) := by decide

/-- C1 (refuting evidence): in the three-body chain chInp, bodies 1 and 3
are not directly coupled, yet the assembled stiffness matrix holds -5 at
their off-diagonal entry (row 0, column 2 after ground removal) instead of
the zero the claim requires; and the entry of the directly coupled pair of
bodies 2 and 3 is -25, the negated sum of all non-ground coupling
stiffnesses of body 2, instead of -20, the negated coefficient of that
specific coupling.  The off-diagonal loop of couple_bodies accumulates every
non-ground relation of row i into C[i,k] and K[i,k] without comparing the
relation column against k. -/
theorem offdiag_not_per_coupling :
    (coupleBodies chInp).toOption.isSome = true ∧
    (3 ∉ chBody1.coupl ∧ 1 ∉ chBody3.coupl) ∧
    asmK chInp 0 2 = -5 ∧ asmK chInp 2 0 = -5 ∧ asmK chInp 1 2 = -25 ∧
    ((-5 : ℤ) ≠ 0 ∧ (-25 : ℤ) ≠ -(20 : ℤ)) := by decide

/-- C2 (refuting evidence): a body whose P attribute is still the
empty-list placeholder of MassBody.__init__ makes RungeKutta4.F, and hence
evaluate, raise AttributeError at the very first force query, instead of
treating the missing force as identically zero and completing the run. -/
theorem missing_force_raises :
    rkF rkNoForce zeroVec zeroVec 0 = .error .attributeError ∧
    evaluate rkNoForce zeroVec zeroVec 0 = .error .attributeError :=
  ⟨rfl, rfl⟩

/-- C4 (refuting evidence): a sine force definition missing its OMEGA entry
makes the embedded __setattr__ validation, and hence ForceFunction.set,
raise the incomplete-definition ValueError.  In the source nothing catches
this exception, so the whole run aborts, although the raised message itself
promises that the affected body will merely receive zero force. -/
theorem incomplete_force_def_fatal :
    checkForceDef fdNoOmega [0, 1] 7 = .error (.incompleteForceValueError 7) ∧
    ForceFunction.set id id fdNoOmega [0, 1] 7 =
      .error (.incompleteForceValueError 7) := ⟨rfl, rfl⟩

/-- C10: for every registry whose base body (id 0, declaring no couplings)
is followed by movable bodies none of which declares a coupling to body 0,
couple_bodies raises the no-coupling ValueError naming body 0: the
connectivity check runs over the ground row of the relations matrix as
well, so at least one declared coupling to ground is required even when all
movable bodies are coupled among themselves. -/
theorem no_ground_coupling_error {α : Type} [LinearOrderedCommRing α]
    (inp : InputData α) (g : MassBody α) (rest : List (MassBody α))
    (hb : inp.bodies = g :: rest) (hg : g.No = 0) (hgc : g.coupl = [])
    (hno : ∀ bd ∈ rest, 0 ∉ bd.coupl) :
    coupleBodies inp = .error (.noCouplingValueError 0) := by
  obtain ⟨bodies, M0, C0, K0, nb, nds⟩ := inp
  dsimp only at hb
  subst hb
  have hrow : ∀ b, (buildRel (g :: rest) : RelSt α).rel 0 b = false := by
    rw [buildRel]
    show ∀ b, (relLoop 1 rest (couplLoop 0 g.c g.k 0 g.coupl {})).rel 0 b = false
    rw [hgc]
    exact relLoop_row0 rest 1 {} le_rfl
      (fun bd hbd x hx h0 => hno bd hbd (h0 ▸ hx)) (fun _ => rfl)
  have hany : ((List.range (g :: rest).length).any
      fun j => (buildRel (g :: rest) : RelSt α).rel 0 j) = false := by
    rw [List.any_eq_false]
    intro x _
    simp [hrow x]
  have hstep : bodyLoop (g :: rest).length (buildRel (g :: rest)).rel
      (buildRel (g :: rest)).relC (buildRel (g :: rest)).relK 0 (g :: rest)
      ({} : MCK α) = .error (.noCouplingValueError 0) := by
    show (if ((List.range (g :: rest).length).any
        fun j => (buildRel (g :: rest) : RelSt α).rel 0 j) = true then _
      else Except.error (PyErr.noCouplingValueError g.No)) = _
    rw [if_neg (by rw [hany]; simp), hg]
  show (match bodyLoop (g :: rest).length (buildRel (g :: rest)).rel
      (buildRel (g :: rest)).relC (buildRel (g :: rest)).relK 0 (g :: rest)
      ({} : MCK α) with
    | .error e => Except.error e
    | .ok mck =>
      match g :: rest with
      | [] => Except.error PyErr.indexError
      | b0 :: rest2 => _) = _
  rw [hstep]

/-- Witness for C10 at the concrete registry ngInp: two movable bodies
coupled to each other only, no coupling to ground anywhere. -/
theorem no_ground_coupling_error_witness :
    coupleBodies ngInp = .error (.noCouplingValueError 0) :=
  no_ground_coupling_error ngInp groundBody [ngBody1, ngBody2] rfl rfl rfl
    (by decide)

/-- Unfolded form of coupleBodies, for rewriting under hypotheses. -/
theorem coupleBodies_eq {α : Type} [LinearOrderedCommRing α]
    (inp : InputData α) :
    coupleBodies inp =
      match bodyLoop inp.bodies.length (buildRel inp.bodies).rel
        (buildRel inp.bodies).relC (buildRel inp.bodies).relK 0 inp.bodies {} with
      | .error e => .error e
      | .ok mck =>
        match inp.bodies with
        | [] => .error .indexError
        | b0 :: rest =>
          if b0.No = 0 then
            .ok { bodies := rest,
                  M := fun a b => mck.M (a + 1) (b + 1),
                  C := mirror (inp.bodies.length - 1)
                        (fun a b => mck.C (a + 1) (b + 1)),
                  K := mirror (inp.bodies.length - 1)
                        (fun a b => mck.K (a + 1) (b + 1)),
                  n_bodies := rest.length,
                  n_ds := (buildRel inp.bodies).n_ds }
          else
            .ok { bodies := inp.bodies, M := mck.M,
                  C := mirror inp.bodies.length mck.C,
                  K := mirror inp.bodies.length mck.K,
                  n_bodies := inp.n_bodies,
                  n_ds := (buildRel inp.bodies).n_ds } := rfl

/-- C7: a registry containing a body whose recorded relations row is
entirely false makes couple_bodies fail with the no-coupling ValueError
(assembly aborts, so no integration can start); and a CPL declaration
listing the body's own number makes the declaration-reading loop of
InputData.__init__ raise the self-coupling ValueError while the list is
being read, independently of any later assembly. -/
theorem unconnected_and_self_coupling_errors {α : Type}
    [LinearOrderedCommRing α] :
    (∀ (inp : InputData α) (i : Nat), 1 ≤ i → i < inp.bodies.length →
      (∀ j, j < inp.bodies.length → (buildRel inp.bodies).rel i j = false) →
      ∃ no, coupleBodies inp = .error (.noCouplingValueError no)) ∧
    (∀ (bodyNo : Nat) (ids : List Nat), bodyNo ∈ ids →
      readCPL bodyNo ids = .error (.selfCouplingValueError bodyNo)) := by
  constructor
  · intro inp i _ hilen hrow
    obtain ⟨no, hno⟩ := bodyLoop_err inp.bodies.length (buildRel inp.bodies).rel
      (buildRel inp.bodies).relC (buildRel inp.bodies).relK inp.bodies 0 {}
      ⟨i, hilen, by
        rw [Nat.zero_add, List.any_eq_false]
        intro x hx
        simp [hrow x (List.mem_range.mp hx)]⟩
    refine ⟨no, ?_⟩
    rw [coupleBodies_eq, hno]
  · intro bodyNo ids h
    exact cplLoop_self bodyNo ids [] h

/-- Witness for C7: the registry unInp whose body No 2 has no couplings at
all, and the coupling list [1, 2] read for body number 2. -/
theorem unconnected_and_self_coupling_errors_witness :
    (∃ no, coupleBodies unInp = .error (.noCouplingValueError no)) ∧
    readCPL 2 [1, 2] = .error (.selfCouplingValueError 2) :=
  ⟨(unconnected_and_self_coupling_errors (α := ℤ)).1 unInp 2 (by decide)
      (by decide) (by decide),
   (unconnected_and_self_coupling_errors (α := ℤ)).2 2 [1, 2] (by decide)⟩

/-- C6: for every registry led by the base body (id 0) whose movable bodies
all have positive mass, a successful assembly yields a diagonal mass matrix
with positive diagonal inside the body count, and damping and stiffness
matrices that are symmetric on all indices inside the body count. -/
theorem assembled_matrices_shape {α : Type} [LinearOrderedCommRing α]
    (inp : InputData α) (g : MassBody α) (rest : List (MassBody α))
    (s : InputData α) (hb : inp.bodies = g :: rest) (hg : g.No = 0)
    (hm : ∀ bd ∈ rest, 0 < bd.m) (hok : coupleBodies inp = .ok s) :
    (∀ i, i < s.n_bodies → 0 < s.M i i) ∧
    (∀ i j, i ≠ j → s.M i j = 0) ∧
    (∀ i j, i < s.n_bodies → j < s.n_bodies →
      s.C i j = s.C j i ∧ s.K i j = s.K j i) := by
  obtain ⟨bodies, M0, C0, K0, nb, nds⟩ := inp
  dsimp only at hb
  subst hb
  rw [coupleBodies_eq] at hok
  dsimp only at hok
  cases hml : bodyLoop (g :: rest).length (buildRel (g :: rest)).rel
      (buildRel (g :: rest)).relC (buildRel (g :: rest)).relK 0 (g :: rest)
      ({} : MCK α) with
  | error e => rw [hml] at hok; exact absurd hok (by simp)
  | ok mck =>
    rw [hml] at hok
    dsimp only at hok
    rw [if_pos hg] at hok
    have hs := (Except.ok.inj hok).symm
    subst hs
    have hM := bodyLoop_M (g :: rest).length (buildRel (g :: rest)).rel
      (buildRel (g :: rest)).relC (buildRel (g :: rest)).relK (g :: rest) 0
      {} mck hml
    have hlen : (g :: rest).length - 1 = rest.length := by simp
    refine ⟨?_, ?_, ?_⟩
    · intro i hi
      dsimp only at hi ⊢
      rw [hM]
      rw [if_pos ⟨rfl, by omega, by simp only [List.length_cons]; omega⟩]
      rw [show i + 1 - 0 = i + 1 from rfl, List.getD_cons_succ]
      rw [List.getD_eq_getElem _ _ hi]
      exact hm _ (List.getElem_mem hi)
    · intro i j hij
      dsimp only
      rw [hM]
      rw [if_neg (by rintro ⟨h, -⟩; omega)]
    · intro i j hi hj
      dsimp only at hi hj ⊢
      rw [hlen]
      constructor <;>
      · rw [mirror_char, mirror_char]
        rcases lt_trichotomy i j with h | h | h
        · rw [if_neg (by omega), if_pos ⟨h, hj⟩]
        · subst h; rfl
        · rw [if_pos ⟨h, hi⟩, if_neg (by omega)]

/-- Witness for C6 at the two-movable-body registry scInp. -/
theorem assembled_matrices_shape_witness :
    (∀ i, i < (asmOut scInp).n_bodies → 0 < (asmOut scInp).M i i) ∧
    (∀ i j, i ≠ j → (asmOut scInp).M i j = 0) ∧
    (∀ i j, i < (asmOut scInp).n_bodies → j < (asmOut scInp).n_bodies →
      (asmOut scInp).C i j = (asmOut scInp).C j i ∧
      (asmOut scInp).K i j = (asmOut scInp).K j i) :=
  assembled_matrices_shape scInp groundBody [scBody1, scBody2] (asmOut scInp)
    rfl rfl (by decide) rfl

/-- C8: the matrices produced by couple_bodies depend only on the body
registry: two input states with equal registries, whatever stale matrices
or counters they carry, produce identical M, C and K. -/
theorem assembly_deterministic {α : Type} [LinearOrderedCommRing α]
    (s1 s2 : InputData α) (h : s1.bodies = s2.bodies) :
    Except.map (fun s => (s.M, s.C, s.K)) (coupleBodies s1) =
    Except.map (fun s => (s.M, s.C, s.K)) (coupleBodies s2) := by
  rw [coupleBodies_eq s1, coupleBodies_eq s2, h]
  cases bodyLoop s2.bodies.length (buildRel s2.bodies).rel
      (buildRel s2.bodies).relC (buildRel s2.bodies).relK 0 s2.bodies
      ({} : MCK α) with
  | error e => rfl
  | ok mck =>
    cases s2.bodies with
    | nil => rfl
    | cons b0 rest =>
      by_cases hb0 : b0.No = 0
      · dsimp only; rw [if_pos hb0, if_pos hb0]
      · dsimp only; rw [if_neg hb0, if_neg hb0]; rfl

/-- Witness for C8: a state carrying stale matrices and a stale body count
next to the two-movable-body registry, against a fresh state with the same
registry. -/
theorem assembly_deterministic_witness :
    Except.map (fun s : InputData ℤ => (s.M, s.C, s.K))
      (coupleBodies staleInp) =
    Except.map (fun s => (s.M, s.C, s.K)) (coupleBodies freshInp) :=
  assembly_deterministic staleInp freshInp rfl

/-- C3: whenever every body carries a ForceFunction, one call of
RungeKutta4.evaluate returns exactly the classical RK4 increment built from
the stage derivative F(x, y, t) = M inverse applied to (P(t) - K x - C y):
stages at t, t + dt/2, t + dt/2, t + dt, velocity increment
dt/6 (F1 + 2 F2 + 2 F3 + F4), and displacement increment
dt/6 (y1 + 2 y2 + 2 y3 + y4) built from the stage velocities. -/
theorem rk4_evaluate_classical {α : Type} [LinearOrderedField α]
    (rk : RungeKutta4 α) (y x : Nat → α) (t : α)
    (hp : ∀ i, i < rk.nbodies → ∃ ff, rk.P.get? i = some (some ff)) :
    evaluate rk y x t = .ok (rk4Increment (Fd rk) y x t rk.dt) := by
  have hF : ∀ x1 y1 t1, rkF rk x1 y1 t1 = .ok (Fd rk x1 y1 t1) :=
    fun x1 y1 t1 => rkF_ok rk x1 y1 t1 hp
  unfold evaluate
  rw [hF]; dsimp only
  rw [hF]; dsimp only
  rw [hF]; dsimp only
  rw [hF]; dsimp only
  unfold rk4Increment
  dsimp only
  have ex2 : (fun i => x i + y i * rk.dt / 2) =
      (fun i => x i + rk.dt / 2 * y i) := by funext i; ring
  have ey2 : (fun i => y i + Fd rk x y t i * rk.dt / 2) =
      (fun i => y i + rk.dt / 2 * Fd rk x y t i) := by funext i; ring
  rw [ex2, ey2]
  have ex3 : (fun i => x i + (y i + Fd rk x y t i * rk.dt / 2) * rk.dt / 2) =
      (fun i => x i + rk.dt / 2 * (y i + rk.dt / 2 * Fd rk x y t i)) := by
    funext i; ring
  have ey3 : (fun i => y i +
      Fd rk (fun i => x i + rk.dt / 2 * y i)
        (fun i => y i + rk.dt / 2 * Fd rk x y t i) (t + rk.dt / 2) i *
        rk.dt / 2) =
      (fun i => y i + rk.dt / 2 *
        Fd rk (fun i => x i + rk.dt / 2 * y i)
          (fun i => y i + rk.dt / 2 * Fd rk x y t i) (t + rk.dt / 2) i) := by
    funext i; ring
  rw [ex3, ey3]
  have ex4 : (fun i => x i + (y i +
      Fd rk (fun i => x i + rk.dt / 2 * y i)
        (fun i => y i + rk.dt / 2 * Fd rk x y t i) (t + rk.dt / 2) i *
        rk.dt / 2) * rk.dt) =
      (fun i => x i + rk.dt * (y i + rk.dt / 2 *
        Fd rk (fun i => x i + rk.dt / 2 * y i)
          (fun i => y i + rk.dt / 2 * Fd rk x y t i) (t + rk.dt / 2) i)) := by
    funext i; ring
  have ey4 : (fun i => y i +
      Fd rk (fun i => x i + rk.dt / 2 * (y i + rk.dt / 2 * Fd rk x y t i))
        (fun i => y i + rk.dt / 2 *
          Fd rk (fun i => x i + rk.dt / 2 * y i)
            (fun i => y i + rk.dt / 2 * Fd rk x y t i) (t + rk.dt / 2) i)
        (t + rk.dt / 2) i * rk.dt) =
      (fun i => y i + rk.dt *
        Fd rk (fun i => x i + rk.dt / 2 * (y i + rk.dt / 2 * Fd rk x y t i))
          (fun i => y i + rk.dt / 2 *
            Fd rk (fun i => x i + rk.dt / 2 * y i)
              (fun i => y i + rk.dt / 2 * Fd rk x y t i) (t + rk.dt / 2) i)
          (t + rk.dt / 2) i) := by
    funext i; ring
  rw [ex4, ey4]
  congr 1
  rw [Prod.mk.injEq]
  exact ⟨funext fun i => by ring, funext fun i => by ring⟩

/-- Witness for C3: a single unit-mass body with the zero force function,
no damping and no stiffness, starting from the zero state. -/
theorem rk4_evaluate_classical_witness :
    (∀ i, i < rkOne.nbodies → ∃ ff, rkOne.P.get? i = some (some ff)) ∧
    evaluate rkOne zeroVec zeroVec 0 =
      .ok (rk4Increment (Fd rkOne) zeroVec zeroVec 0 rkOne.dt) := by
  have hp : ∀ i, i < rkOne.nbodies → ∃ ff, rkOne.P.get? i = some (some ff) := by
    intro i hi
    have h0 : i = 0 := Nat.lt_one_iff.mp hi
    subst h0
    exact ⟨ffZero, rfl⟩
  exact ⟨hp, rk4_evaluate_classical rkOne zeroVec zeroVec 0 hp⟩

/-- C5 (counterexample): over the reals with the numpy cosine waveform, the
force function sampled from fdCos (window [1, 2], amplitude 1, angular
frequency 1) on the grid [0, 1, 2] returns 1/2, not 0, at the in-bounds
query time 1/2 lying strictly before the window start: np.interp
interpolates between the zero sample at time 0 and the sample
cos 0 = 1 at time 1, so the claim's outside-window clause fails at query
times between grid points. -/
theorem force_window_offgrid_counterexample :
    Except.map (fun ff => ff.get (1 / 2 : ℝ))
      (ForceFunction.set Real.sin Real.cos fdCos [0, 1, 2] 1) = .ok (1 / 2) ∧
    ((1 / 2 : ℝ) < 1 ∧ (0 : ℝ) ≤ 1 / 2 ∧ (1 / 2 : ℝ) ≤ 2 ∧ (1 / 2 : ℝ) ≠ 0) := by
  constructor
  · norm_num [ForceFunction.set, checkForceDef, fdCos, ForceFunction.get,
      interp, Real.cos_zero, Except.map, List.zip, List.zipWith]
  · norm_num

/-- C5 (amended): for a sine or cosine force definition with all fields
present, a nonnegative stop inside the grid and a strictly increasing time
grid, get returns at every query time that is a grid point exactly 0 outside
the window [start, stop] and exactly
amplitude * waveform(omega * (t - start)) inside it.  (At query times
strictly between grid points the zero clause can fail, as the
counterexample shows, because get linearly interpolates.) -/
theorem force_window_gridpoint_amended {α : Type} [LinearOrderedField α]
    (sinF cosF : α → α) (fd : FDef α) (time : List α) (bodyNo : Nat)
    (ff : ForceFunction α) (om p0 st sp : α)
    (htype : fd.type = some FType.SIN ∨ fd.type = some FType.COS)
    (hom : fd.omega = some om) (hp0 : fd.p0 = some p0)
    (hst : fd.start = some st) (hsp : fd.stop = some sp) (hsp0 : 0 ≤ sp)
    (hsort : List.Pairwise (· < ·) time)
    (hset : ForceFunction.set sinF cosF fd time bodyNo = .ok ff)
    (t : α) (ht : t ∈ time) :
    ff.get t = if st ≤ t ∧ t ≤ sp then
      p0 * (if fd.type = some FType.SIN then sinF else cosF) (om * (t - st))
    else 0 := by
  have hget : ∀ w : α → α,
      ff = ⟨time, time.map fun u => if st ≤ u ∧ u ≤ sp then
        p0 * w (om * (u - st)) else 0⟩ →
      ff.get t = if st ≤ t ∧ t ≤ sp then p0 * w (om * (t - st)) else 0 := by
    intro w hff
    subst hff
    have hzip : time.zip (time.map fun u =>
        if st ≤ u ∧ u ≤ sp then p0 * w (om * (u - st)) else 0) =
        time.map fun u => (u, if st ≤ u ∧ u ≤ sp then
          p0 * w (om * (u - st)) else 0) := by
      have h1 := List.zip_map' (id : α → α)
        (fun u => if st ≤ u ∧ u ≤ sp then p0 * w (om * (u - st)) else 0) time
      rwa [List.map_id] at h1
    show interp t _ = _
    rw [hzip]
    apply interp_eq_of_mem
    · rw [List.map_map]
      have hid : (Prod.fst ∘ fun u : α =>
          (u, if st ≤ u ∧ u ≤ sp then p0 * w (om * (u - st)) else 0)) = id :=
        rfl
      rw [hid, List.map_id]
      exact hsort
    · exact List.mem_map_of_mem _ ht
  obtain ⟨ty, o, p, s1, s2⟩ := fd
  dsimp only at hom hp0 hst hsp htype ⊢
  subst hom
  subst hp0
  subst hst
  subst hsp
  rcases htype with rfl | rfl
  · have hsetEq : ForceFunction.set sinF cosF
        ⟨some FType.SIN, some om, some p0, some st, some sp⟩ time bodyNo =
        (if time.head?.getD 0 ≤ st ∧ st ≤ time.getLast?.getD 0 then
          (if time.head?.getD 0 ≤ sp ∧ sp ≤ time.getLast?.getD 0 then
            .ok ⟨time, time.map fun u => if st ≤ u ∧ u ≤ sp then
              p0 * sinF (om * (u - st)) else 0⟩
          else .error (.windowValueError bodyNo))
        else .error (.windowValueError bodyNo)) := by
      split_ifs with h1 h2
      · simp [ForceFunction.set, checkForceDef, h1, h2, not_lt.mpr hsp0]
      · simp [ForceFunction.set, checkForceDef, h1, h2]
      · simp [ForceFunction.set, checkForceDef, h1]
    rw [hsetEq] at hset
    split_ifs at hset with h1 h2
    have hff := (Except.ok.inj hset).symm
    rw [hget sinF hff]
    simp
  · have hsetEq : ForceFunction.set sinF cosF
        ⟨some FType.COS, some om, some p0, some st, some sp⟩ time bodyNo =
        (if time.head?.getD 0 ≤ st ∧ st ≤ time.getLast?.getD 0 then
          (if time.head?.getD 0 ≤ sp ∧ sp ≤ time.getLast?.getD 0 then
            .ok ⟨time, time.map fun u => if st ≤ u ∧ u ≤ sp then
              p0 * cosF (om * (u - st)) else 0⟩
          else .error (.windowValueError bodyNo))
        else .error (.windowValueError bodyNo)) := by
      split_ifs with h1 h2
      · simp [ForceFunction.set, checkForceDef, h1, h2, not_lt.mpr hsp0]
      · simp [ForceFunction.set, checkForceDef, h1, h2]
      · simp [ForceFunction.set, checkForceDef, h1]
    rw [hsetEq] at hset
    split_ifs at hset with h1 h2
    have hff := (Except.ok.inj hset).symm
    rw [hget cosF hff]
    simp

/-- Witness for the amended C5: the identity in place of the sine waveform,
amplitude 1, angular frequency 1, window [0, 2] on the grid [0, 1, 2],
queried at the grid point 1. -/
theorem force_window_gridpoint_amended_witness :
    ffWit.get 1 = if (0 : ℚ) ≤ 1 ∧ (1 : ℚ) ≤ 2 then
      1 * (if fdWit.type = some FType.SIN then (id : ℚ → ℚ) else id)
        (1 * (1 - 0))
    else 0 :=
  force_window_gridpoint_amended id id fdWit [0, 1, 2] 5 ffWit 1 1 0 2
    (Or.inl rfl) rfl rfl rfl rfl (by norm_num) (by norm_num)
    (by norm_num [ForceFunction.set, checkForceDef, fdWit, ffWit]) 1
    (by norm_num)

end MDOF
